import Mathlib

/-!
Verification of the gmail-mcp repository core against its specification.

The development shallowly embeds:
* credential extraction from a Nango broker response and the two
  authentication flows (`gmail_auth.py`),
* search-query building, MIME body extraction and message composition
  (`gmail_operations.py`),
* the tool layer with its validation and error translation
  (`gmail_mcp_server.py`).

External collaborators (the HTTP broker, the remote Gmail API, the Python
standard library's base64/utf-8 codecs and MIME serializer) are modelled
explicitly: network calls become oracle functions supplied as parameters,
codecs are implemented directly.
-/

namespace GmailMcp

/-- JSON-like values appearing in a Nango broker response.  Only string
leaves and nested objects (ordered association lists with distinct keys,
mirroring a Python dict) are needed by the code under study. -/
inductive JVal where
  | str (s : String)
  | obj (fields : List (String × JVal))

/-- A broker response is an untyped JSON object, i.e. a Python dict. -/
abbrev BrokerResponse := List (String × JVal)

/-- Dictionary lookup: `d.get(k)` / `k in d` on a Python dict, modelled as
first-key lookup in the association list. -/
def jlookup (fields : List (String × JVal)) (k : String) : Option JVal :=
  match fields with
  | [] => none
  | (k2, v) :: rest => if k2 = k then some v else jlookup rest k

/-- View a looked-up JSON value as a string; token fields are strings in
every shape the broker produces. -/
def asStr : Option JVal → Option String
  | some (JVal.str s) => some s
  | _ => none

/-- Python truthiness of an optional string: `None` and `""` are falsy. -/
def truthy : Option String → Bool
  | none => false
  | some s => s != ""

/-- The token fields handed to `google.oauth2.credentials.Credentials`:
`token=access_token, refresh_token=refresh_token` (the other constructor
arguments are constants in the code under study). -/
structure CredsM where
  token : String
  refresh_token : Option String
deriving DecidableEq, Repr

/-- Token extraction of `create_credentials_from_nango` (gmail_auth.py
lines 43-70): `credentials_data = nango_response.get('credentials',
nango_response)`, then `access_token`/`refresh_token` are read from it and
`if not access_token: raise ValueError`.  A non-object value under
`credentials` makes the Python `.get` call raise `AttributeError`. -/
def create_credentials_from_nango (r : BrokerResponse) : Except String CredsM :=
  match jlookup r "credentials" with
  | some (JVal.str _) => .error "AttributeError"
  | some (JVal.obj credentials_data) => credsFromData credentials_data
  | none => credsFromData r
where
  credsFromData (cd : List (String × JVal)) : Except String CredsM :=
    match asStr (jlookup cd "access_token") with
    | none => .error "No access_token found in Nango response"
    | some t =>
      if t = "" then .error "No access_token found in Nango response"
      else .ok { token := t, refresh_token := asStr (jlookup cd "refresh_token") }

/-- Token extraction of `authenticate_gmail_with_nango_v2` (gmail_auth.py
lines 112-131): an `elif` chain dispatching on top-level KEY PRESENCE
(`'access_token' in r`, `'credentials' in r`, `'token' in r`), followed by
the Python truthiness check `if not access_token: raise ValueError`.
A non-object value under `credentials` raises (`.get` on a string). -/
def extract_tokens_v2 (r : BrokerResponse) : Except String CredsM :=
  let pair : Option JVal × Option JVal :=
    match jlookup r "access_token" with
    | some v => (some v, jlookup r "refresh_token")
    | none =>
      match jlookup r "credentials" with
      | some (JVal.obj creds_data) =>
          (jlookup creds_data "access_token", jlookup creds_data "refresh_token")
      | some (JVal.str _) => (none, none)
      | none =>
        match jlookup r "token" with
        | some v => (some v, jlookup r "refresh_token")
        | none => (none, none)
  match asStr pair.1 with
  | none => .error "No access token found in Nango response"
  | some t =>
    if t = "" then .error "No access token found in Nango response"
    else .ok { token := t, refresh_token := asStr pair.2 }

/-- Observable side-effecting steps of an authentication flow: a
token-endpoint refresh (`creds.refresh(Request())`) and building the Gmail
service (`build('gmail', 'v1', ...)`). -/
inductive AuthStep where
  | refreshCall
  | buildService
deriving DecidableEq, Repr

/-- `authenticate_gmail_with_nango` (gmail_auth.py lines 72-99).  `valid`
abstracts the google-auth `creds.valid` property at construction time and
`refreshOk` whether a token-endpoint refresh would succeed; both are
environment facts outside this repository.  The result carries the ordered
list of side-effecting steps performed. -/
def authenticate_gmail_with_nango (r : BrokerResponse) (valid refreshOk : Bool) :
    Except String (CredsM × List AuthStep) :=
  match create_credentials_from_nango r with
  | .error e => .error e
  | .ok creds =>
    if !valid && truthy creds.refresh_token then
      if refreshOk then .ok (creds, [AuthStep.refreshCall, AuthStep.buildService])
      else .error "RefreshError"
    else .ok (creds, [AuthStep.buildService])

/-- `authenticate_gmail_with_nango_v2` (gmail_auth.py lines 102-147):
extracts tokens, builds the `Credentials` object and immediately builds the
service.  It contains no refresh step, so `valid` and `refreshOk` are
never consulted. -/
def authenticate_gmail_with_nango_v2 (r : BrokerResponse) (valid refreshOk : Bool) :
    Except String (CredsM × List AuthStep) :=
  match extract_tokens_v2 r with
  | .error e => .error e
  | .ok creds => .ok (creds, [AuthStep.buildService])

/-- `get_gmail_client` (gmail_mcp_server.py lines 29-45) on its first call:
requires `GMAIL_CONNECTION_ID` and authenticates via
`authenticate_gmail_with_nango_v2`. -/
def get_gmail_client (connection_id : Option String) (r : BrokerResponse)
    (valid refreshOk : Bool) : Except String (CredsM × List AuthStep) :=
  if truthy connection_id then authenticate_gmail_with_nango_v2 r valid refreshOk
  else .error "GMAIL_CONNECTION_ID environment variable is required"

/-! ### Base64url codec

Model of Python's `base64.urlsafe_b64encode` / `urlsafe_b64decode` on byte
sequences (bytes are `Nat` values below 256).  The URL-safe alphabet uses
`-` and `_` for values 62 and 63. -/

/-- The URL-safe base64 alphabet, in value order. -/
def b64alphabet : List Char :=
  "ABCDEFGHIJKLMNOPQRSTUVWXYZabcdefghijklmnopqrstuvwxyz0123456789-_".data

/-- Character for a 6-bit value. -/
def b64char (n : Nat) : Char := b64alphabet.getD n 'A'

/-- Value of an alphabet character, scanning the alphabet. -/
def b64valAux (cs : List Char) (i : Nat) (c : Char) : Option Nat :=
  match cs with
  | [] => none
  | a :: rest => if a = c then some i else b64valAux rest (i + 1) c

/-- Six-bit value of a base64url character. -/
def b64val (c : Char) : Option Nat := b64valAux b64alphabet 0 c

/-- `base64.urlsafe_b64encode` on a byte list: 3-byte groups become 4
characters; trailing groups are padded with `=`. -/
def b64encodeBytes : List Nat → List Char
  | a :: b :: c :: rest =>
    b64char (a / 4) :: b64char (a % 4 * 16 + b / 16) ::
      b64char (b % 16 * 4 + c / 64) :: b64char (c % 64) :: b64encodeBytes rest
  | [a, b] => [b64char (a / 4), b64char (a % 4 * 16 + b / 16), b64char (b % 16 * 4), '=']
  | [a] => [b64char (a / 4), b64char (a % 4 * 16), '=', '=']
  | [] => []

/-- `base64.urlsafe_b64decode` on well-formed input: 4-character groups,
`=`-padding only in the final group.  Malformed input yields `none`
(Python raises `binascii.Error`; Python additionally discards characters
outside the alphabet before decoding, which no input in this development
contains). -/
def b64decodeBytes : List Char → Option (List Nat)
  | [] => some []
  | c1 :: c2 :: c3 :: c4 :: rest =>
    match b64val c1, b64val c2 with
    | some v1, some v2 =>
      if c3 = '=' then
        if c4 = '=' ∧ rest = [] then some [v1 * 4 + v2 / 16] else none
      else
        match b64val c3 with
        | some v3 =>
          if c4 = '=' then
            if rest = [] then some [v1 * 4 + v2 / 16, v2 % 16 * 16 + v3 / 4] else none
          else
            match b64val c4 with
            | some v4 =>
              (b64decodeBytes rest).map
                (fun bs => (v1 * 4 + v2 / 16) :: (v2 % 16 * 16 + v3 / 4) :: (v3 % 4 * 64 + v4) :: bs)
            | none => none
        | none => none
    | _, _ => none
  | _ => none

/-! ### UTF-8 decoding

Strict model of Python's `bytes.decode('utf-8')`, sufficient for the byte
sequences arising here (all concrete inputs are ASCII; multi-byte sequences
are decoded by their standard bit layout, without the overlong/surrogate
refinements, which no input in this development exercises). -/

/-- Decode a UTF-8 byte sequence; `none` models `UnicodeDecodeError`. -/
def utf8Decode : List Nat → Option (List Char)
  | [] => some []
  | b1 :: rest =>
    if b1 < 128 then (utf8Decode rest).map (fun cs => Char.ofNat b1 :: cs)
    else if 194 ≤ b1 ∧ b1 ≤ 223 then
      match rest with
      | b2 :: rest2 =>
        if 128 ≤ b2 ∧ b2 ≤ 191 then
          (utf8Decode rest2).map (fun cs => Char.ofNat ((b1 - 192) * 64 + (b2 - 128)) :: cs)
        else none
      | [] => none
    else if 224 ≤ b1 ∧ b1 ≤ 239 then
      match rest with
      | b2 :: b3 :: rest2 =>
        if (128 ≤ b2 ∧ b2 ≤ 191) ∧ (128 ≤ b3 ∧ b3 ≤ 191) then
          (utf8Decode rest2).map
            (fun cs => Char.ofNat ((b1 - 224) * 4096 + (b2 - 128) * 64 + (b3 - 128)) :: cs)
        else none
      | _ => none
    else if 240 ≤ b1 ∧ b1 ≤ 244 then
      match rest with
      | b2 :: b3 :: b4 :: rest2 =>
        if (128 ≤ b2 ∧ b2 ≤ 191) ∧ (128 ≤ b3 ∧ b3 ≤ 191) ∧ (128 ≤ b4 ∧ b4 ≤ 191) then
          (utf8Decode rest2).map
            (fun cs =>
              Char.ofNat ((b1 - 240) * 262144 + (b2 - 128) * 4096 + (b3 - 128) * 64 + (b4 - 128)) :: cs)
        else none
      | _ => none
    else none

/-- The decode step of `get_message_body`:
`base64.urlsafe_b64decode(data).decode('utf-8')`; errors model the
exceptions the two Python calls can raise. -/
def decode_part_data (data : String) : Except String String :=
  match b64decodeBytes data.data with
  | none => .error "binascii.Error"
  | some bytes =>
    match utf8Decode bytes with
    | none => .error "UnicodeDecodeError"
    | some cs => .ok (String.mk cs)

/-! ### MIME payload tree and body extraction -/

/-- A Gmail message payload part.  `leaf` is a part dict without a
`parts` key; `node` is a part dict with a `parts` key (possibly holding an
empty list).  `data` records whether `'data' in part.get('body', {})` and,
when present, the base64url payload string. -/
inductive Part where
  | leaf (mimeType : String) (data : Option String)
  | node (mimeType : String) (data : Option String) (children : List Part)

/-- The `mimeType` field of a part. -/
def Part.mimeType : Part → String
  | .leaf mt _ => mt
  | .node mt _ _ => mt

/-- The inline `body.data` field of a part, when present. -/
def Part.data : Part → Option String
  | .leaf _ d => d
  | .node _ d _ => d

mutual

/-- `extract_text_from_payload` (gmail_operations.py lines 52-71): if the
payload has a `parts` key, scan the children; otherwise return the
payload's own data when it is tagged `text/plain`, else `""`. -/
def extract_text_from_payload : Part → Except String String
  | Part.leaf mt d =>
    if mt = "text/plain" ∧ d.isSome then decode_part_data (d.getD "")
    else .ok ""
  | Part.node _ _ children => scan_payload_parts children

/-- The `for part in payload['parts']` loop: a `text/plain` child with
inline data is decoded and returned immediately; a child with a `parts`
key is recursed into, its non-empty result returned, the next sibling
tried otherwise; any other child is skipped. -/
def scan_payload_parts : List Part → Except String String
  | [] => .ok ""
  | p :: rest =>
    if p.mimeType = "text/plain" ∧ p.data.isSome then decode_part_data (p.data.getD "")
    else
      match p with
      | Part.node _ _ cs =>
        match scan_payload_parts cs with
        | .error e => .error e
        | .ok r => if r = "" then scan_payload_parts rest else .ok r
      | Part.leaf _ _ => scan_payload_parts rest

end

mutual

/-- Whether a part tree contains a part tagged `text/plain` anywhere. -/
def hasPlainPart : Part → Bool
  | Part.leaf mt _ => mt == "text/plain"
  | Part.node mt _ cs => mt == "text/plain" || hasPlainList cs

/-- Whether any part of a list contains a `text/plain` tag. -/
def hasPlainList : List Part → Bool
  | [] => false
  | p :: rest => hasPlainPart p || hasPlainList rest

end

/-- A Gmail message as returned by `users().messages().get`: the payload
dict (headers plus the root MIME part), the snippet, label ids and thread
id.  `payload = none` models a message dict without a `payload` key. -/
structure GMessage where
  payload : Option (List (String × String) × Part)
  snippet : String
  labelIds : List String
  threadId : String

/-- `get_message_body` (gmail_operations.py lines 44-73): `""` for a
missing message or missing payload, else the payload-tree extraction. -/
def get_message_body (message : Option GMessage) : Except String String :=
  match message with
  | none => .ok ""
  | some m =>
    match m.payload with
    | none => .ok ""
    | some (_, tree) => extract_text_from_payload tree

/-- `get_message_headers` (gmail_operations.py lines 75-83): the header
list of the payload, or `{}` when message or payload is missing. -/
def get_message_headers (message : Option GMessage) : List (String × String) :=
  match message with
  | none => []
  | some m =>
    match m.payload with
    | none => []
    | some (hs, _) => hs

/-- Python dict semantics of `get_message_headers`' result: building the
dict lets a later duplicate header overwrite an earlier one; `.get name
default` then reads it. -/
def headerGet (hs : List (String × String)) (name dflt : String) : String :=
  (hs.foldl (fun acc p => if p.1 = name then some p.2 else acc) none).getD dflt

/-! ### Search-query building -/

/-- The structured search filter accepted by the `gmail_search_messages`
tool (spec section 3). -/
structure SearchFilter where
  sender : Option String := none
  subject : Option String := none
  after_date : Option String := none
  before_date : Option String := none
  has_attachment : Bool := false
  is_unread : Bool := false

/-- Query construction of `search_messages` (gmail_operations.py lines
179-196): append one clause per truthy argument, in source order, and join
with single spaces.  The function has no `before_date` parameter. -/
def build_search_query (sender subject after_date : Option String)
    (has_attachment is_unread : Bool) : String :=
  let query_parts : List String :=
    (if truthy sender then ["from:" ++ sender.getD ""] else []) ++
    (if truthy subject then ["subject:\"" ++ subject.getD "" ++ "\""] else []) ++
    (if truthy after_date then ["after:" ++ after_date.getD ""] else []) ++
    (if has_attachment then ["has:attachment"] else []) ++
    (if is_unread then ["is:unread"] else [])
  String.intercalate " " query_parts

/-- The query produced for a `SearchFilter` by the server's
`gmail_search_messages`, which forwards sender, subject, after_date,
has_attachment and is_unread to `search_messages` and drops
`before_date`. -/
def filterQuery (f : SearchFilter) : String :=
  build_search_query f.sender f.subject f.after_date f.has_attachment f.is_unread

/-- Modelled from the spec (section 4.3 `buildQuery`), for comparison with
the source definition: one clause per active field, joined by single
spaces, in the fixed order sender, subject, after_date, has_attachment,
is_unread, with clause forms `from:<sender>`, `subject:"<subject>"`,
`after:<after_date>`, `has:attachment`, `is:unread`; `before_date` is
never emitted. -/
def buildQuerySpec (f : SearchFilter) : String :=
  String.intercalate " "
    ((match f.sender with
      | some s => if s = "" then [] else ["from:" ++ s]
      | none => []) ++
     (match f.subject with
      | some s => if s = "" then [] else ["subject:\"" ++ s ++ "\""]
      | none => []) ++
     (match f.after_date with
      | some s => if s = "" then [] else ["after:" ++ s]
      | none => []) ++
     (if f.has_attachment then ["has:attachment"] else []) ++
     (if f.is_unread then ["is:unread"] else []))

/-! ### Remote service oracle and GmailClient operations -/

/-- The remote Gmail API, abstracted as response oracles: each field gives
the outcome of one `execute()` call, `.error` modelling a raised
exception. -/
structure Service where
  listResult : String → Nat → Except String (List String)
  getResult : String → Except String GMessage
  deleteResult : String → Except String Unit
  modifyResult : String → Except String Unit

/-- `GmailClient.list_messages` (gmail_operations.py lines 16-29): returns
the message-id list, but catches ANY exception and returns `[]`. -/
def list_messages (svc : Service) (query : String) (max_results : Nat) : List String :=
  match svc.listResult query max_results with
  | .ok ms => ms
  | .error _ => []

/-- `GmailClient.get_message` (lines 31-42): the message, or `None` on any
exception. -/
def get_message (svc : Service) (message_id : String) : Option GMessage :=
  match svc.getResult message_id with
  | .ok m => some m
  | .error _ => none

/-- `GmailClient.delete_message` (lines 166-177): `True` on success,
`False` on any exception. -/
def delete_message (svc : Service) (message_id : String) : Bool :=
  match svc.deleteResult message_id with
  | .ok _ => true
  | .error _ => false

/-- `GmailClient.mark_as_read` (lines 152-164): `True` on success,
`False` on any exception. -/
def mark_as_read (svc : Service) (message_id : String) : Bool :=
  match svc.modifyResult message_id with
  | .ok _ => true
  | .error _ => false

/-- `GmailClient.search_messages` (lines 179-196): build the query and
call `list_messages` with its DEFAULT `max_results=10`; no result limit is
forwarded. -/
def search_messages (svc : Service) (sender subject after_date : Option String)
    (has_attachment is_unread : Bool) : List String :=
  list_messages svc (build_search_query sender subject after_date has_attachment is_unread) 10

/-! ### Tool layer -/

/-- `validate_message_id` (gmail_mcp_server.py lines 48-50): a non-empty
string. -/
def validate_message_id (message_id : String) : Bool :=
  message_id != ""

/-- One entry of a tool's `messages` result list.  The list tool fills
`labels`, the search tool fills `has_attachment`; absent keys are
`none`. -/
structure MsgSummary where
  id : String
  fromAddr : String
  subject : String
  date : String
  snippet : String
  labels : Option (List String) := none
  is_unread : Bool
  has_attachment : Option Bool := none
deriving DecidableEq, Repr

/-- A tool's JSON response dict: `success` plus whichever keys the branch
sets (`none` models an absent key). -/
structure ToolResp where
  success : Bool
  error : Option String := none
  count : Option Nat := none
  messages : Option (List MsgSummary) := none
  message : Option String := none
  query_used : Option String := none
  search_criteria : Option (List String) := none
  deleted : Option Nat := none
  marked_as_read : Option Nat := none
  total_requested : Option Nat := none
  failed_ids : Option (List String) := none
  warning : Option String := none
deriving DecidableEq, Repr

/-- The per-message detail record built by `gmail_list_messages` (lines
85-98); `none` when `get_message` returned `None`. -/
def list_detail (svc : Service) (message_id : String) : Option MsgSummary :=
  match get_message svc message_id with
  | none => none
  | some m =>
    let hs := get_message_headers (some m)
    some {
      id := message_id
      fromAddr := headerGet hs "From" "Unknown"
      subject := headerGet hs "Subject" "No Subject"
      date := headerGet hs "Date" "Unknown"
      snippet := if m.snippet = "" then "" else m.snippet.take 100 ++ "..."
      labels := some m.labelIds
      is_unread := m.labelIds.contains "UNREAD" }

/-- `gmail_list_messages` (gmail_mcp_server.py lines 58-108).  `client` is
the outcome of `get_gmail_client()`: a raised exception there is caught by
the tool's `except` and rendered as a failure response. -/
def gmail_list_messages (client : Except String Service) (query : String)
    (max_results : Int) : ToolResp :=
  if max_results < 1 ∨ max_results > 100 then
    { success := false, error := some "max_results must be between 1 and 100" }
  else
    match client with
    | .error e => { success := false, error := some ("Failed to list messages: " ++ e) }
    | .ok svc =>
      let messages := list_messages svc query max_results.toNat
      if messages = [] then
        { success := true, count := some 0, messages := some [],
          message := some "No messages found" }
      else
        let detailed := messages.filterMap (list_detail svc)
        { success := true, count := some detailed.length, messages := some detailed,
          query_used := some (if query = "" then "all messages" else query) }

/-- Sequence-prefix test on character lists. -/
def startsWithSeq : List Char → List Char → Bool
  | [], _ => true
  | _ :: _, [] => false
  | p :: ps, x :: xs => p == x && startsWithSeq ps xs

/-- Python's substring test `needle in haystack` on character lists. -/
def containsSeq (needle : List Char) : List Char → Bool
  | [] => needle.isEmpty
  | x :: xs => startsWithSeq needle (x :: xs) || containsSeq needle xs

/-- The per-message detail record built by `gmail_search_messages` (lines
256-269). -/
def search_detail (svc : Service) (message_id : String) : Option MsgSummary :=
  match get_message svc message_id with
  | none => none
  | some m =>
    let hs := get_message_headers (some m)
    some {
      id := message_id
      fromAddr := headerGet hs "From" "Unknown"
      subject := headerGet hs "Subject" "No Subject"
      date := headerGet hs "Date" "Unknown"
      snippet := if m.snippet = "" then "" else m.snippet.take 100 ++ "..."
      is_unread := m.labelIds.contains "UNREAD"
      has_attachment := some (containsSeq "attachment".data m.snippet.toLower.data) }

/-- `gmail_search_messages` (gmail_mcp_server.py lines 205-288): validate
`max_results`, search WITHOUT forwarding any limit (and without
forwarding `before_date`), then truncate to `max_results` and build the
detail list. -/
def gmail_search_messages (client : Except String Service) (f : SearchFilter)
    (max_results : Int) : ToolResp :=
  if max_results < 1 ∨ max_results > 100 then
    { success := false, error := some "max_results must be between 1 and 100" }
  else
    match client with
    | .error e => { success := false, error := some ("Failed to search messages: " ++ e) }
    | .ok svc =>
      let messages := search_messages svc f.sender f.subject f.after_date
        f.has_attachment f.is_unread
      if messages = [] then
        { success := true, count := some 0, messages := some [],
          message := some "No messages found matching search criteria" }
      else
        let limited := messages.take max_results.toNat
        let detailed := limited.filterMap (search_detail svc)
        let criteria : List String :=
          (if truthy f.sender then ["sender: " ++ f.sender.getD ""] else []) ++
          (if truthy f.subject then ["subject: " ++ f.subject.getD ""] else []) ++
          (if truthy f.after_date then ["after: " ++ f.after_date.getD ""] else []) ++
          (if truthy f.before_date then ["before: " ++ f.before_date.getD ""] else []) ++
          (if f.has_attachment then ["has attachment"] else []) ++
          (if f.is_unread then ["unread only"] else [])
        { success := true, count := some detailed.length, messages := some detailed,
          search_criteria := some (if criteria = [] then ["all messages"] else criteria) }

/-- `gmail_delete_messages` (gmail_mcp_server.py lines 337-381): validate,
then delete each id independently, counting successes and collecting
failed ids. -/
def gmail_delete_messages (client : Except String Service)
    (message_ids : List String) : ToolResp :=
  if message_ids = [] then
    { success := false, error := some "No message IDs provided" }
  else
    let invalid_ids := message_ids.filter (fun i => !(validate_message_id i))
    if invalid_ids ≠ [] then
      { success := false,
        error := some ("Invalid message IDs: " ++ String.intercalate ", " invalid_ids) }
    else
      match client with
      | .error e => { success := false, error := some ("Failed to delete messages: " ++ e) }
      | .ok svc =>
        let acc := message_ids.foldl
          (fun (acc : Nat × List String) mid =>
            if delete_message svc mid then (acc.1 + 1, acc.2) else (acc.1, acc.2 ++ [mid]))
          (0, [])
        { success := acc.1 != 0
          deleted := some acc.1
          total_requested := some message_ids.length
          message := some ("Deleted " ++ toString acc.1 ++ "/" ++
            toString message_ids.length ++ " messages")
          failed_ids := if acc.2 = [] then none else some acc.2
          warning := if acc.2 = [] then none else some "Some messages could not be deleted" }

/-! ### Outgoing message assembly and the decode direction

`send_message` builds `MIMEText(body)`, sets `to`/`subject` (and `from`
when given), serializes with `as_bytes()` and base64url-encodes the
result.  The serialization model follows Python's compat32 generator with
`\n` line separators; header folding of over-long lines is not modelled
(no input here exercises it). -/

/-- Join header lines with single newlines (no trailing newline). -/
def joinLines : List (List Char) → List Char
  | [] => []
  | [l] => l
  | l :: rest => l ++ '\n' :: joinLines rest

/-- Serialization of the `MIMEText` message built by `send_message`
(gmail_operations.py lines 85-96): the three headers set by the `MIMEText`
constructor, then `to`, `subject` and (when truthy) `from`, a blank line,
and the payload. -/
def mime_serialize (toAddr subject body : String) (from_email : Option String) : List Char :=
  let headerLines : List (List Char) :=
    ["Content-Type: text/plain; charset=\"us-ascii\"".data,
     "MIME-Version: 1.0".data,
     "Content-Transfer-Encoding: 7bit".data,
     "to: ".data ++ toAddr.data,
     "subject: ".data ++ subject.data] ++
    (if truthy from_email then ["from: ".data ++ (from_email.getD "").data] else [])
  joinLines headerLines ++ '\n' :: '\n' :: body.data

/-- `send_message`'s `raw_message`:
`base64.urlsafe_b64encode(message.as_bytes()).decode()`. -/
def compose_message (toAddr subject body : String) (from_email : Option String) : List Char :=
  b64encodeBytes ((mime_serialize toAddr subject body from_email).map Char.toNat)

/-- The standard (non-URL-safe) base64 alphabet used by
`email.encoders.encode_base64` for attachment payloads. -/
def b64charStd (n : Nat) : Char :=
  "ABCDEFGHIJKLMNOPQRSTUVWXYZabcdefghijklmnopqrstuvwxyz0123456789+/".data.getD n 'A'

/-- Standard-alphabet base64 encoding (same grouping as
`b64encodeBytes`). -/
def b64encodeStdBytes : List Nat → List Char
  | a :: b :: c :: rest =>
    b64charStd (a / 4) :: b64charStd (a % 4 * 16 + b / 16) ::
      b64charStd (b % 16 * 4 + c / 64) :: b64charStd (c % 64) :: b64encodeStdBytes rest
  | [a, b] => [b64charStd (a / 4), b64charStd (a % 4 * 16 + b / 16), b64charStd (b % 16 * 4), '=']
  | [a] => [b64charStd (a / 4), b64charStd (a % 4 * 16), '=', '=']
  | [] => []

/-- Wrap encoded characters into 76-character lines, each line
newline-terminated, as `base64.encodebytes` does. -/
def chunk76 (cs : List Char) : List Char :=
  if h : cs = [] then []
  else if cs.length ≤ 76 then cs ++ ['\n']
  else cs.take 76 ++ '\n' :: chunk76 (cs.drop 76)
termination_by cs.length
decreasing_by
  simp [List.length_drop]
  omega

/-- `email.encoders.encode_base64` on the attachment bytes. -/
def encode_base64_wrapped (bytes : List Nat) : List Char :=
  chunk76 (b64encodeStdBytes bytes)

/-- `os.path.basename`: the final path component, i.e. the characters
after the last `/`. -/
def basename (p : String) : String :=
  String.mk ((p.data.reverse.takeWhile (fun c => c != '/')).reverse)

/-- Serialization of the `MIMEMultipart` message built by
`send_message_with_attachment` (gmail_operations.py lines 110-138):
multipart headers carrying the generator's boundary, then the plain-text
body part and the base64 attachment part between boundary delimiters.
`boundary` abstracts the randomly generated boundary string. -/
def mime_serialize_multipart (toAddr subject body filename : String)
    (filedata : List Nat) (boundary : String) : List Char :=
  let head := joinLines
    ["Content-Type: multipart/mixed; boundary=\"".data ++ boundary.data ++ "\"".data,
     "MIME-Version: 1.0".data,
     "to: ".data ++ toAddr.data,
     "subject: ".data ++ subject.data]
  let part1 := joinLines
    ["Content-Type: text/plain; charset=\"us-ascii\"".data,
     "MIME-Version: 1.0".data,
     "Content-Transfer-Encoding: 7bit".data] ++ '\n' :: '\n' :: body.data
  let part2 := joinLines
    ["Content-Type: application/octet-stream".data,
     "MIME-Version: 1.0".data,
     "Content-Transfer-Encoding: base64".data,
     "Content-Disposition: attachment; filename= ".data ++ filename.data] ++
    '\n' :: '\n' :: encode_base64_wrapped filedata
  head ++ '\n' :: '\n' :: '-' :: '-' :: boundary.data ++ '\n' ::
    (part1 ++ '\n' :: '-' :: '-' :: boundary.data ++ '\n' ::
      (part2 ++ '\n' :: '-' :: '-' :: boundary.data ++ "--\n".data))

/-- `send_message_with_attachment`'s raw message; `fileExists` models
`os.path.exists(file_path)` and `filedata` the file's bytes; `None` is
returned when the attachment file is missing. -/
def compose_message_with_attachment (toAddr subject body file_path : String)
    (fileExists : Bool) (filedata : List Nat) (boundary : String) : Option (List Char) :=
  if fileExists then
    some (b64encodeBytes
      ((mime_serialize_multipart toAddr subject body (basename file_path) filedata boundary).map
        Char.toNat))
  else none

/-! ### MIME parsing (the decode direction of the round-trip)

Models the spec's decode step: base64url-decode the raw string, then
parse the serialized message (split headers from payload at the first
blank line, read a header value, and for a multipart message extract the
first part's payload using the boundary declared in `Content-Type`). -/

/-- Split at the first blank line (`\n\n`), returning the header block
and the payload. -/
def splitAtBlank : List Char → Option (List Char × List Char)
  | [] => none
  | [_] => none
  | c1 :: c2 :: rest =>
    if c1 = '\n' ∧ c2 = '\n' then some ([], rest)
    else (splitAtBlank (c2 :: rest)).map (fun p => (c1 :: p.1, p.2))

/-- Split a header block into lines. -/
def splitLines : List Char → List (List Char)
  | [] => [[]]
  | c :: rest =>
    if c = '\n' then [] :: splitLines rest
    else
      match splitLines rest with
      | [] => [[c]]
      | l :: ls => (c :: l) :: ls

/-- Find a header's value among header lines. -/
def findHeader (name : List Char) : List (List Char) → Option (List Char)
  | [] => none
  | l :: rest =>
    if startsWithSeq (name ++ ": ".data) l then some (l.drop (name ++ ": ".data).length)
    else findHeader name rest

/-- Read one header value of a serialized message. -/
def parse_mime_header (name : List Char) (msg : List Char) : Option (List Char) :=
  (splitAtBlank msg).bind (fun p => findHeader name (splitLines p.1))

/-- The payload of a serialized single-part message. -/
def parse_mime_body (msg : List Char) : Option (List Char) :=
  (splitAtBlank msg).map (fun p => p.2)

/-- Split at the first occurrence of `sep`, dropping the separator. -/
def splitAtSeq (sep : List Char) : List Char → Option (List Char × List Char)
  | [] => none
  | c :: rest =>
    if startsWithSeq sep (c :: rest) then some ([], (c :: rest).drop sep.length)
    else (splitAtSeq sep rest).map (fun p => (c :: p.1, p.2))

/-- The boundary parameter of a `Content-Type` header value. -/
def extract_boundary (ct : List Char) : Option (List Char) :=
  match splitAtSeq "boundary=\"".data ct with
  | none => none
  | some (_, rest) => (splitAtSeq "\"".data rest).map (fun p => p.1)

/-- The decoded payload of the FIRST part of a serialized multipart
message: read the boundary from `Content-Type`, skip the opening
delimiter and the part's headers, and take everything up to the next
delimiter. -/
def parse_first_part_body (msg : List Char) : Option (List Char) :=
  match splitAtBlank msg with
  | none => none
  | some (hdrs, rest) =>
    match findHeader "Content-Type".data (splitLines hdrs) with
    | none => none
    | some ct =>
      match extract_boundary ct with
      | none => none
      | some boundary =>
        if startsWithSeq ('-' :: '-' :: boundary ++ ['\n']) rest then
          match splitAtBlank (rest.drop (boundary.length + 3)) with
          | none => none
          | some (_, after) =>
            (splitAtSeq ('\n' :: '-' :: '-' :: boundary) after).map (fun p => p.1)
        else none

/-- Base64url-decode a raw transport string back to serialized message
characters (all messages here are ASCII). -/
def decode_raw (raw : List Char) : Option (List Char) :=
  (b64decodeBytes raw).map (fun bytes => bytes.map Char.ofNat)

/-- Whether `sep` occurs in `l` starting at position `i`. -/
def occursAt (sep l : List Char) (i : Nat) : Bool :=
  startsWithSeq sep (l.drop i)

/-- No occurrence of the part delimiter `"\n--" ++ boundary` starts
inside `body` (the real generator chooses the random boundary to ensure
this); the delimiter the serializer appends right after `body` is the
first one. -/
def sepFree (boundary body : List Char) : Prop :=
  ∀ i < body.length,
    occursAt ('\n' :: '-' :: '-' :: boundary) (body ++ '\n' :: '-' :: '-' :: boundary) i = false

/-- ASCII characters only. -/
def asciiStr (s : String) : Prop := ∀ c ∈ s.data, c.toNat < 128

/-- ASCII characters only, none of them a newline. -/
def headerSafe (s : String) : Prop := ∀ c ∈ s.data, c.toNat < 128 ∧ c ≠ '\n'

/-! ### Concrete services used as witnesses -/

/-- A service whose every remote call raises. -/
def svcFail : Service where
  listResult := fun _ _ => .error "network unreachable"
  getResult := fun _ => .error "network unreachable"
  deleteResult := fun _ => .error "network unreachable"
  modifyResult := fun _ => .error "network unreachable"

/-- A service where deleting message "a" succeeds and every other delete
raises. -/
def svcDel : Service where
  listResult := fun _ _ => .ok []
  getResult := fun _ => .error "not found"
  deleteResult := fun i => if i = "a" then .ok () else .error "insufficient permissions"
  modifyResult := fun _ => .ok ()

/-- A service returning as many message ids as requested, every message
readable. -/
def svcMany : Service where
  listResult := fun _ n => .ok (List.replicate n "m1")
  getResult := fun _ =>
    .ok { payload := some ([("From", "x@y.com")], Part.leaf "text/plain" none),
          snippet := "hello", labelIds := ["UNREAD"], threadId := "t1" }
  deleteResult := fun _ => .ok ()
  modifyResult := fun _ => .ok ()

/-- A fully populated sample filter. -/
def sampleFilter : SearchFilter where
  sender := some "a@b.com"
  subject := some "hello world"
  after_date := some "2024/01/01"
  before_date := some "2024/02/02"
  has_attachment := true
  is_unread := true

/-- All characters of a list are ASCII. -/
def asciiL (l : List Char) : Prop := ∀ c ∈ l, c.toNat < 128

/-- Top-level header lines of the serialized multipart message, in a
parse-friendly association. -/
def multipartHeadLines (toAddr subject boundary : String) : List (List Char) :=
  [("Content-Type".data ++ ": ".data) ++
     ("multipart/mixed; ".data ++ ("boundary=\"".data ++ (boundary.data ++ "\"".data))),
   "MIME-Version: 1.0".data,
   "to: ".data ++ toAddr.data,
   "subject: ".data ++ subject.data]

/-- Header lines of the plain-text part. -/
def part1Lines : List (List Char) :=
  ["Content-Type: text/plain; charset=\"us-ascii\"".data,
   "MIME-Version: 1.0".data,
   "Content-Transfer-Encoding: 7bit".data]

/-- Header lines of the attachment part. -/
def part2Lines (filename : String) : List (List Char) :=
  ["Content-Type: application/octet-stream".data,
   "MIME-Version: 1.0".data,
   "Content-Transfer-Encoding: base64".data,
   "Content-Disposition: attachment; filename= ".data ++ filename.data]

/-- Everything after the plain-text part's blank line: its body, then the
delimiter, the attachment part and the closing delimiter. -/
def part1Tail (body : String) (filedata : List Nat) (boundary filename : String) : List Char :=
  body.data ++
    (('\n' :: '-' :: '-' :: boundary.data) ++
      ('\n' ::
        (joinLines (part2Lines filename) ++
          ('\n' :: '\n' ::
            (encode_base64_wrapped filedata ++
              (('\n' :: '-' :: '-' :: boundary.data) ++ "--\n".data))))))

/-- Everything after the top-level blank line: the opening delimiter, the
plain-text part's headers and `part1Tail`. -/
def multipartRest (body : String) (filedata : List Nat) (boundary filename : String) :
    List Char :=
  ('-' :: '-' :: (boundary.data ++ ['\n'])) ++
    (joinLines part1Lines ++ ('\n' :: '\n' :: part1Tail body filedata boundary filename))

/-! ## Lemmas and theorems -/

theorem b64val_b64char : ∀ n : Nat, n < 64 → b64val (b64char n) = some n := by decide

theorem b64char_ne_pad : ∀ n : Nat, n < 64 → b64char n ≠ '=' := by decide

/-- Decoding inverts encoding on byte lists. -/
theorem b64decode_encode : ∀ bs : List Nat, (∀ x ∈ bs, x < 256) →
    b64decodeBytes (b64encodeBytes bs) = some bs := by
  intro bs
  induction bs using b64encodeBytes.induct with
  | case1 a b c rest ih =>
    intro h
    have ha : a < 256 := h a (by simp)
    have hb : b < 256 := h b (by simp)
    have hc : c < 256 := h c (by simp)
    have hrest : ∀ x ∈ rest, x < 256 := fun x hx => h x (by simp [hx])
    have e1 := b64val_b64char (a / 4) (by omega)
    have e2 := b64val_b64char (a % 4 * 16 + b / 16) (by omega)
    have e3 := b64val_b64char (b % 16 * 4 + c / 64) (by omega)
    have e4 := b64val_b64char (c % 64) (by omega)
    have n3 := b64char_ne_pad (b % 16 * 4 + c / 64) (by omega)
    have n4 := b64char_ne_pad (c % 64) (by omega)
    have q1 : a / 4 * 4 + (a % 4 * 16 + b / 16) / 16 = a := by omega
    have q2 : (a % 4 * 16 + b / 16) % 16 * 16 + (b % 16 * 4 + c / 64) / 4 = b := by omega
    have q3 : (b % 16 * 4 + c / 64) % 4 * 64 + c % 64 = c := by omega
    simp [b64encodeBytes, b64decodeBytes, e1, e2, e3, e4, n3, n4,
      ih hrest, q1, q2, q3]
  | case2 a b =>
    intro h
    have ha : a < 256 := h a (by simp)
    have hb : b < 256 := h b (by simp)
    have e1 := b64val_b64char (a / 4) (by omega)
    have e2 := b64val_b64char (a % 4 * 16 + b / 16) (by omega)
    have e3 := b64val_b64char (b % 16 * 4) (by omega)
    have n3 := b64char_ne_pad (b % 16 * 4) (by omega)
    have q1 : a / 4 * 4 + (a % 4 * 16 + b / 16) / 16 = a := by omega
    have q2 : (a % 4 * 16 + b / 16) % 16 * 16 + b % 16 * 4 / 4 = b := by omega
    simp [b64encodeBytes, b64decodeBytes, e1, e2, e3, n3, q1, q2]
    omega
  | case3 a =>
    intro h
    have ha : a < 256 := h a (by simp)
    have e1 := b64val_b64char (a / 4) (by omega)
    have e2 := b64val_b64char (a % 4 * 16) (by omega)
    have q1 : a / 4 * 4 + a % 4 * 16 / 16 = a := by omega
    simp [b64encodeBytes, b64decodeBytes, e1, e2, q1]
    omega
  | case4 =>
    intro _
    simp [b64encodeBytes, b64decodeBytes]

/-- C1 counterexample: with response `{"credentials": {}, "token": "tok-b"}`
the claim's search order would find the access token `"tok-b"` under the
`token` key, but the code dispatches on the presence of the `credentials`
key, never reaches `token`, and raises instead of building a credential. -/
theorem C1_counterexample :
    extract_tokens_v2 [("credentials", JVal.obj []), ("token", JVal.str "tok-b")] =
      .error "No access token found in Nango response" ∧
    ∀ c : CredsM,
      extract_tokens_v2 [("credentials", JVal.obj []), ("token", JVal.str "tok-b")] ≠ .ok c := by
  constructor
  · rfl
  · intro c h
    exact Except.noConfusion (rfl.trans h)

/-- C1 (amended): token extraction dispatches on top-level key presence:
a present top-level `access_token` is used exactly; otherwise a present
`credentials` object is consulted for its `access_token` — and when that
object lacks one, extraction fails without ever reaching the `token` key;
only when both keys are absent is a present `token` value used. -/
theorem C1_token_extraction_order (r : BrokerResponse) :
    (∀ t : String, jlookup r "access_token" = some (JVal.str t) → t ≠ "" →
      extract_tokens_v2 r = .ok { token := t, refresh_token := asStr (jlookup r "refresh_token") }) ∧
    (∀ cd, jlookup r "access_token" = none → jlookup r "credentials" = some (JVal.obj cd) →
      ∀ t : String, jlookup cd "access_token" = some (JVal.str t) → t ≠ "" →
        extract_tokens_v2 r = .ok { token := t, refresh_token := asStr (jlookup cd "refresh_token") }) ∧
    (jlookup r "access_token" = none → jlookup r "credentials" = none →
      ∀ t : String, jlookup r "token" = some (JVal.str t) → t ≠ "" →
        extract_tokens_v2 r = .ok { token := t, refresh_token := asStr (jlookup r "refresh_token") }) ∧
    (∀ cd, jlookup r "access_token" = none → jlookup r "credentials" = some (JVal.obj cd) →
      asStr (jlookup cd "access_token") = none →
        extract_tokens_v2 r = .error "No access token found in Nango response") := by
  refine ⟨?_, ?_, ?_, ?_⟩
  · intro t h ht
    simp [extract_tokens_v2, h, asStr, ht]
  · intro cd h hc t ht htne
    simp [extract_tokens_v2, h, hc, ht, asStr, htne]
  · intro h hc t ht htne
    simp [extract_tokens_v2, h, hc, ht, asStr, htne]
  · intro cd h hc ht
    simp [extract_tokens_v2, h, hc, ht]

/-- C1 witness: a flat response with a top-level access token. -/
theorem C1_witness :
    extract_tokens_v2 [("access_token", JVal.str "A"), ("refresh_token", JVal.str "R")] =
      .ok { token := "A", refresh_token := some "R" } :=
  (C1_token_extraction_order _).1 "A" rfl (by decide)

/-- C2 counterexample: the server's client construction goes through
`authenticate_gmail_with_nango_v2`, which builds the service without any
refresh even when the credential is invalid (`valid = false`), a refresh
token is present, and a refresh attempt would fail (`refreshOk = false`);
construction neither performs a refresh nor aborts. -/
theorem C2_counterexample :
    authenticate_gmail_with_nango_v2
        [("access_token", JVal.str "A"), ("refresh_token", JVal.str "R")] false false =
      .ok ({ token := "A", refresh_token := some "R" }, [AuthStep.buildService]) ∧
    AuthStep.refreshCall ∉ [AuthStep.buildService] := by
  exact ⟨rfl, by decide⟩

/-- C2 (amended): the refresh-before-use policy is implemented only in
`authenticate_gmail_with_nango`: there, an invalid credential with a
refresh token is refreshed before the service is built and a refresh
failure aborts construction with `RefreshError`.  The server's
`get_gmail_client` instead calls `authenticate_gmail_with_nango_v2`,
which never performs a refresh regardless of validity. -/
theorem C2_refresh_only_in_v1 :
    (∀ (r : BrokerResponse) (valid refreshOk : Bool) (c : CredsM) (steps : List AuthStep),
      authenticate_gmail_with_nango_v2 r valid refreshOk = .ok (c, steps) →
        AuthStep.refreshCall ∉ steps) ∧
    (∀ (cid : String) (r : BrokerResponse) (valid refreshOk : Bool) (c : CredsM)
        (steps : List AuthStep),
      get_gmail_client (some cid) r valid refreshOk = .ok (c, steps) →
        AuthStep.refreshCall ∉ steps) ∧
    (∀ (r : BrokerResponse) (c : CredsM),
      create_credentials_from_nango r = .ok c →
      truthy c.refresh_token = true →
        (authenticate_gmail_with_nango r false false = .error "RefreshError") ∧
        (authenticate_gmail_with_nango r false true =
          .ok (c, [AuthStep.refreshCall, AuthStep.buildService]))) := by
  refine ⟨?_, ?_, ?_⟩
  · intro r valid refreshOk c steps h
    unfold authenticate_gmail_with_nango_v2 at h
    cases hx : extract_tokens_v2 r with
    | error e => rw [hx] at h; exact Except.noConfusion h
    | ok creds =>
      rw [hx] at h
      cases h
      decide
  · intro cid r valid refreshOk c steps h
    unfold get_gmail_client at h
    by_cases ht : truthy (some cid) = true
    · rw [if_pos ht] at h
      unfold authenticate_gmail_with_nango_v2 at h
      cases hx : extract_tokens_v2 r with
      | error e => rw [hx] at h; exact Except.noConfusion h
      | ok creds =>
        rw [hx] at h
        cases h
        decide
    · rw [if_neg ht] at h
      exact Except.noConfusion h
  · intro r c hc htr
    unfold authenticate_gmail_with_nango
    rw [hc]
    constructor
    · simp [htr]
    · simp [htr]

/-- C2 witness: on a flat response, v1 with an invalid credential and a
failing refresh endpoint aborts with `RefreshError`. -/
theorem C2_witness :
    authenticate_gmail_with_nango
        [("access_token", JVal.str "A"), ("refresh_token", JVal.str "R")] false false =
      .error "RefreshError" :=
  (C2_refresh_only_in_v1.2.2 [("access_token", JVal.str "A"), ("refresh_token", JVal.str "R")]
    { token := "A", refresh_token := some "R" } rfl rfl).1

/-- C3 counterexample: with a service whose list call raises, the
`gmail_list_messages` tool reports success with zero messages and no
error key — the remote failure is reported as a success. -/
theorem C3_counterexample :
    svcFail.listResult "" 10 = .error "network unreachable" ∧
    (gmail_list_messages (.ok svcFail) "" 10).success = true ∧
    (gmail_list_messages (.ok svcFail) "" 10).error = none := by
  exact ⟨rfl, rfl, rfl⟩

/-- C3 (amended): an exception reaching the tool body (e.g. from client
construction) is caught and returned as `{success:false, error:...}`, but
a failing remote list call is swallowed inside `GmailClient.list_messages`
(which returns `[]`), so the tool reports `{success:true, count:0}` — a
remote listing failure is reported as a success, not as an error. -/
theorem C3_tool_error_translation :
    (∀ (svc : Service) (q : String) (mr : Int) (err : String),
      1 ≤ mr → mr ≤ 100 → svc.listResult q mr.toNat = .error err →
      gmail_list_messages (.ok svc) q mr =
        { success := true, count := some 0, messages := some [],
          message := some "No messages found" }) ∧
    (∀ (e q : String) (mr : Int), 1 ≤ mr → mr ≤ 100 →
      gmail_list_messages (.error e) q mr =
        { success := false, error := some ("Failed to list messages: " ++ e) }) := by
  constructor
  · intro svc q mr err hlo hhi herr
    unfold gmail_list_messages
    rw [if_neg (by omega)]
    simp [list_messages, herr]
  · intro e q mr hlo hhi
    unfold gmail_list_messages
    rw [if_neg (by omega)]

/-- C3 witness: the two translation branches at concrete inputs. -/
theorem C3_witness :
    gmail_list_messages (.ok svcFail) "q" 10 =
      { success := true, count := some 0, messages := some [],
        message := some "No messages found" } ∧
    gmail_list_messages (.error "broker down") "q" 10 =
      { success := false, error := some ("Failed to list messages: " ++ "broker down") } :=
  ⟨C3_tool_error_translation.1 svcFail "q" 10 "network unreachable" (by decide) (by decide) rfl,
   C3_tool_error_translation.2 "broker down" "q" 10 (by decide) (by decide)⟩

/-- C4: a filter whose only set field is `before_date` produces the empty
query: `before_date` is never translated into a clause, whatever its
value. -/
theorem C4_before_date_never_emitted :
    ∀ bd : Option String, filterQuery { before_date := bd } = "" := by
  intro bd
  rfl

/-- C5: body extraction is depth-first with first-match-wins: a first
child tagged `text/plain` with inline data is decoded and returned
immediately; a first child with children is recursed into and its
non-empty result returned, the next siblings being consulted only when
the recursive result is empty; and on a two-level tree whose plain-text
part is the second child of the first child, that part's decoded content
is returned. -/
theorem C5_body_extraction_depth_first :
    (∀ (mt0 : String) (d0 : Option String) (p : Part) (rest : List Part) (d : String),
      p.mimeType = "text/plain" → p.data = some d →
      extract_text_from_payload (Part.node mt0 d0 (p :: rest)) = decode_part_data d) ∧
    (∀ (mt0 mt1 : String) (d0 d1 : Option String) (cs rest : List Part) (r : String),
      ¬(mt1 = "text/plain" ∧ d1.isSome) →
      extract_text_from_payload (Part.node mt1 d1 cs) = .ok r → r ≠ "" →
      extract_text_from_payload (Part.node mt0 d0 (Part.node mt1 d1 cs :: rest)) = .ok r) ∧
    (∀ (mt0 mt1 : String) (d0 d1 : Option String) (cs rest : List Part),
      ¬(mt1 = "text/plain" ∧ d1.isSome) →
      extract_text_from_payload (Part.node mt1 d1 cs) = .ok "" →
      extract_text_from_payload (Part.node mt0 d0 (Part.node mt1 d1 cs :: rest)) =
        scan_payload_parts rest) ∧
    (∀ (h d s : String) (rest : List Part),
      decode_part_data d = .ok s → s ≠ "" →
      extract_text_from_payload (Part.node "multipart/mixed" none
        (Part.node "multipart/alternative" none
          [Part.leaf "text/html" (some h), Part.leaf "text/plain" (some d)] :: rest)) = .ok s) := by
  refine ⟨?_, ?_, ?_, ?_⟩
  · intro mt0 d0 p rest d hmt hd
    cases p with
    | leaf mt dd =>
      simp [Part.mimeType] at hmt
      simp [Part.data] at hd
      simp [extract_text_from_payload, scan_payload_parts, Part.mimeType, Part.data, hmt, hd]
    | node mt dd cs =>
      simp [Part.mimeType] at hmt
      simp [Part.data] at hd
      simp [extract_text_from_payload, scan_payload_parts, Part.mimeType, Part.data, hmt, hd]
  · intro mt0 mt1 d0 d1 cs rest r hnot hrec hr
    rw [extract_text_from_payload] at hrec
    simp [extract_text_from_payload, scan_payload_parts, Part.mimeType, Part.data, hnot,
      hrec, hr]
  · intro mt0 mt1 d0 d1 cs rest hnot hrec
    rw [extract_text_from_payload] at hrec
    simp [extract_text_from_payload, scan_payload_parts, Part.mimeType, Part.data, hnot, hrec]
  · intro h d s rest hdec hs
    simp [extract_text_from_payload, scan_payload_parts, Part.mimeType, Part.data, hdec, hs]

/-- C5 witness: the two-level tree with an html part first and the plain
part second inside the first child; `"aGk="` decodes to `"hi"`. -/
theorem C5_witness :
    extract_text_from_payload (Part.node "multipart/mixed" none
      [Part.node "multipart/alternative" none
        [Part.leaf "text/html" (some "PGI+aGk8L2I+"), Part.leaf "text/plain" (some "aGk=")]]) =
      .ok "hi" :=
  C5_body_extraction_depth_first.2.2.2 "PGI+aGk8L2I+" "aGk=" "hi" [] rfl (by decide)

mutual

/-- A part tree with no `text/plain` tag anywhere. -/
theorem extract_no_plain_part : ∀ t : Part, hasPlainPart t = false →
    extract_text_from_payload t = .ok ""
  | Part.leaf mt d, h => by
    simp [hasPlainPart] at h
    simp [extract_text_from_payload, h]
  | Part.node mt d cs, h => by
    simp [hasPlainPart] at h
    rw [extract_text_from_payload]
    exact scan_no_plain_parts cs h.2

/-- Sibling scan over parts with no `text/plain` tag anywhere. -/
theorem scan_no_plain_parts : ∀ ps : List Part, hasPlainList ps = false →
    scan_payload_parts ps = .ok ""
  | [], _ => by simp [scan_payload_parts]
  | p :: rest, h => by
    rw [hasPlainList] at h
    rw [Bool.or_eq_false_iff] at h
    obtain ⟨h1, h2⟩ := h
    cases p with
    | leaf mt d =>
      simp [hasPlainPart] at h1
      simp [scan_payload_parts, Part.mimeType, h1, scan_no_plain_parts rest h2]
    | node mt d cs =>
      rw [hasPlainPart, Bool.or_eq_false_iff] at h1
      obtain ⟨h1a, h1b⟩ := h1
      simp at h1a
      simp [scan_payload_parts, Part.mimeType, h1a, scan_no_plain_parts cs h1b,
        scan_no_plain_parts rest h2]

end

/-- C6: on a payload tree containing no `text/plain` part anywhere, body
extraction returns the empty string and raises no error (no decode is
ever attempted), both at the tree level and through `get_message_body`. -/
theorem C6_no_plain_returns_empty :
    (∀ t : Part, hasPlainPart t = false → extract_text_from_payload t = .ok "") ∧
    (∀ (m : GMessage) (hs : List (String × String)) (t : Part),
      m.payload = some (hs, t) → hasPlainPart t = false →
      get_message_body (some m) = .ok "") := by
  constructor
  · exact extract_no_plain_part
  · intro m hs t hp h
    simp [get_message_body, hp, extract_no_plain_part t h]

/-- C6 witness: a two-level tree of html and octet-stream parts only. -/
theorem C6_witness :
    extract_text_from_payload (Part.node "multipart/mixed" none
      [Part.node "multipart/alternative" none [Part.leaf "text/html" (some "PGI+")],
       Part.leaf "application/octet-stream" (some "AAAA")]) = .ok "" :=
  C6_no_plain_returns_empty.1 _ (by simp [hasPlainPart, hasPlainList])

/-- C7: query building is deterministic — identical filters give
byte-identical queries — and agrees with the spec's description of
`buildQuery`: one clause per active field, single-space joined, in the
fixed order sender, subject, after_date, has_attachment, is_unread, with
clause forms `from:`, quoted `subject:"..."`, verbatim `after:`,
`has:attachment`, `is:unread`. -/
theorem C7_query_building_deterministic :
    (∀ f g : SearchFilter, f = g → filterQuery f = filterQuery g) ∧
    (∀ f : SearchFilter, filterQuery f = buildQuerySpec f) := by
  constructor
  · intro f g h
    rw [h]
  · intro f
    obtain ⟨sd, sj, ad, bd, ha, iu⟩ := f
    simp only [filterQuery, build_search_query, buildQuerySpec]
    cases sd <;> cases sj <;> cases ad <;>
      simp [truthy, bne_iff_ne]

/-- C7 witness: the refinement and determinism at a fully populated
filter. -/
theorem C7_witness :
    filterQuery sampleFilter = buildQuerySpec sampleFilter ∧
    filterQuery sampleFilter = filterQuery sampleFilter :=
  ⟨C7_query_building_deterministic.2 sampleFilter,
   C7_query_building_deterministic.1 sampleFilter sampleFilter rfl⟩

/-- C8: batch delete processes ids independently: with id1 succeeding
remotely and id2 failing, the response is success with `deleted = 1` and
`failed_ids = [id2]`; one id's failure does not abort the batch. -/
theorem C8_batch_delete_independent (svc : Service) (id1 id2 : String)
    (h1 : validate_message_id id1 = true) (h2 : validate_message_id id2 = true)
    (d1 : delete_message svc id1 = true) (d2 : delete_message svc id2 = false) :
    gmail_delete_messages (.ok svc) [id1, id2] =
      { success := true, deleted := some 1, total_requested := some 2,
        message := some "Deleted 1/2 messages",
        failed_ids := some [id2],
        warning := some "Some messages could not be deleted" } := by
  unfold gmail_delete_messages
  rw [if_neg (by simp)]
  simp [List.filter, h1, h2, List.foldl, d1, d2]
  rfl

/-- C8 witness: deleting `["a", "b"]` against a service where only "a"
deletes. -/
theorem C8_witness :
    gmail_delete_messages (.ok svcDel) ["a", "b"] =
      { success := true, deleted := some 1, total_requested := some 2,
        message := some "Deleted 1/2 messages",
        failed_ids := some ["b"],
        warning := some "Some messages could not be deleted" } :=
  C8_batch_delete_independent svcDel "a" "b" rfl rfl rfl rfl

/-- C10: because `search_messages` calls `list_messages` with its default
limit of 10 and never forwards the tool's `max_results`, the search tool
returns at most `min max_results 10` summaries for every `max_results`
in 1..100, for any service that honours the requested page size. -/
theorem C10_search_result_capped (svc : Service) (f : SearchFilter) (mr : Int)
    (hlo : 1 ≤ mr) (hhi : mr ≤ 100)
    (hsvc : ∀ (q : String) (n : Nat) (ms : List String),
      svc.listResult q n = .ok ms → ms.length ≤ n) :
    ∃ k, (gmail_search_messages (.ok svc) f mr).count = some k ∧ k ≤ min mr.toNat 10 := by
  unfold gmail_search_messages
  rw [if_neg (by omega)]
  cases hx : svc.listResult
      (build_search_query f.sender f.subject f.after_date f.has_attachment f.is_unread) 10 with
  | error e =>
    simp only [search_messages, list_messages, hx]
    exact ⟨0, rfl, by omega⟩
  | ok ms =>
    have hlen : ms.length ≤ 10 := hsvc _ _ _ hx
    simp only [search_messages, list_messages, hx]
    by_cases hempty : ms = []
    · rw [if_pos hempty]
      exact ⟨0, rfl, by omega⟩
    · rw [if_neg hempty]
      refine ⟨((ms.take mr.toNat).filterMap (search_detail svc)).length, rfl, ?_⟩
      have hfm := List.length_filterMap_le (search_detail svc) (ms.take mr.toNat)
      have htk : (ms.take mr.toNat).length = min mr.toNat ms.length := List.length_take _ _
      omega

/-- C10 witness: a service returning a full page for every request; at
`max_results = 100` the tool still reports at most 10. -/
theorem C10_witness :
    ∃ k, (gmail_search_messages (.ok svcMany) {} 100).count = some k ∧
      k ≤ min (100 : Int).toNat 10 :=
  C10_search_result_capped svcMany {} 100 (by decide) (by decide)
    (fun q n ms h => by
      injection h with h2
      rw [← h2]
      simp)

/-! ### Support lemmas for the composition round-trip (C9) -/

/-- Byte projection and reinjection is the identity on ASCII strings. -/
theorem map_ofNat_toNat (cs : List Char) (h : ∀ c ∈ cs, c.toNat < 128) :
    (cs.map Char.toNat).map Char.ofNat = cs := by
  induction cs with
  | nil => rfl
  | cons c rest ih =>
    simp only [List.map_cons, Char.ofNat_toNat]
    rw [ih (fun x hx => h x (by simp [hx]))]

/-- Base64url-decoding an encoded ASCII character list recovers it. -/
theorem decode_raw_encode (cs : List Char) (h : ∀ c ∈ cs, c.toNat < 128) :
    decode_raw (b64encodeBytes (cs.map Char.toNat)) = some cs := by
  unfold decode_raw
  rw [b64decode_encode]
  · rw [Option.map_some', map_ofNat_toNat cs h]
  · intro x hx
    obtain ⟨c, hc, rfl⟩ := List.mem_map.mp hx
    exact lt_trans (h c hc) (by omega)

/-- Heads of appends with a nonempty left part. -/
theorem head_append_left (a b : List Char) (h : a ≠ []) : (a ++ b).head? = a.head? := by
  cases a with
  | nil => exact absurd rfl h
  | cons x xs => rfl

/-- The head of joined lines is the head of the first line. -/
theorem joinLines_head (l : List Char) (ls : List (List Char)) (h : l ≠ []) :
    (joinLines (l :: ls)).head? = l.head? := by
  cases ls with
  | nil => rfl
  | cons l2 rest => exact head_append_left l _ h

/-- Unfolding step: a non-newline head passes into the first component. -/
theorem splitAtBlank_cons_ne (x : Char) (t : List Char) (hx : x ≠ '\n') :
    splitAtBlank (x :: t) = (splitAtBlank t).map (fun p => (x :: p.1, p.2)) := by
  cases t with
  | nil => rfl
  | cons y ys =>
    rw [splitAtBlank]
    rw [if_neg (by simp [hx])]

/-- Unfolding step: a newline not followed by a newline passes into the
first component. -/
theorem splitAtBlank_nl_cons (y : Char) (ys : List Char) (hy : y ≠ '\n') :
    splitAtBlank ('\n' :: y :: ys) =
      (splitAtBlank (y :: ys)).map (fun p => ('\n' :: p.1, p.2)) := by
  rw [splitAtBlank]
  rw [if_neg (by simp [hy])]

/-- Unfolding step: a blank line splits immediately. -/
theorem splitAtBlank_blank (rest : List Char) :
    splitAtBlank ('\n' :: '\n' :: rest) = some ([], rest) := by
  rw [splitAtBlank]
  simp

/-- A newline-free line passes through the blank-line split. -/
theorem splitAtBlank_through (line : List Char) (z : List Char)
    (hl : '\n' ∉ line) (hz : z.head? ≠ some '\n') :
    splitAtBlank (line ++ '\n' :: z) =
      (splitAtBlank z).map (fun p => (line ++ '\n' :: p.1, p.2)) := by
  induction line with
  | nil =>
    cases z with
    | nil => rfl
    | cons c zs =>
      have hc : c ≠ '\n' := by
        intro h
        exact hz (by rw [h]; rfl)
      simpa using splitAtBlank_nl_cons c zs hc
  | cons x xs ih =>
    have hx : x ≠ '\n' := fun h => hl (by rw [h]; simp)
    have hxs : '\n' ∉ xs := fun h => hl (by simp [h])
    rw [List.cons_append, splitAtBlank_cons_ne x _ hx, ih hxs]
    cases splitAtBlank z <;> simp

/-- The final newline-free header line, the blank line, and the body. -/
theorem splitAtBlank_last (line body : List Char) (hl : '\n' ∉ line) :
    splitAtBlank (line ++ '\n' :: '\n' :: body) = some (line, body) := by
  induction line with
  | nil => simpa using splitAtBlank_blank body
  | cons x xs ih =>
    have hx : x ≠ '\n' := fun h => hl (by rw [h]; simp)
    have hxs : '\n' ∉ xs := fun h => hl (by simp [h])
    rw [List.cons_append, splitAtBlank_cons_ne x _ hx, ih hxs]
    rfl

/-- Splitting a serialized header block followed by a blank line and a
body recovers the block and the body. -/
theorem splitAtBlank_headers : ∀ (lines : List (List Char)) (body : List Char),
    lines ≠ [] → (∀ l ∈ lines, '\n' ∉ l ∧ l ≠ []) →
    splitAtBlank (joinLines lines ++ '\n' :: '\n' :: body) = some (joinLines lines, body)
  | [], _, hne, _ => absurd rfl hne
  | [l], body, _, h => by
    simp only [joinLines]
    exact splitAtBlank_last l body (h l (by simp)).1
  | l :: l2 :: rest, body, _, h => by
    have hl := h l (by simp)
    have hl2 := h l2 (by simp)
    have ihres := splitAtBlank_headers (l2 :: rest) body (by simp)
      (fun x hx => h x (by simp [List.mem_cons] at hx ⊢; tauto))
    rw [show joinLines (l :: l2 :: rest) = l ++ '\n' :: joinLines (l2 :: rest) from rfl]
    rw [List.append_assoc, List.cons_append]
    rw [splitAtBlank_through l _ hl.1 ?hz]
    · rw [ihres]
      rfl
    case hz =>
      rw [head_append_left _ _ ?hne]
      · rw [joinLines_head l2 rest hl2.2]
        cases l2 with
        | nil => exact absurd rfl hl2.2
        | cons c cs =>
          simp only [List.head?]
          intro hcontra
          have : c = '\n' := by injection hcontra
          exact hl2.1 (by rw [← this]; simp)
      · cases hj : joinLines (l2 :: rest) with
        | nil =>
          exfalso
          cases rest with
          | nil => exact hl2.2 (by simpa [joinLines] using hj)
          | cons a b =>
            rw [show joinLines (l2 :: a :: b) = l2 ++ '\n' :: joinLines (a :: b) from rfl] at hj
            cases l2 with
            | nil => exact hl2.2 rfl
            | cons c cs => simp at hj
        | cons c cs => simp

/-- A newline-free character list is a single line. -/
theorem splitLines_single (l : List Char) (h : '\n' ∉ l) : splitLines l = [l] := by
  induction l with
  | nil => rfl
  | cons x xs ih =>
    have hx : x ≠ '\n' := fun hh => h (by rw [hh]; simp)
    have hxs : '\n' ∉ xs := fun hh => h (by simp [hh])
    rw [splitLines]
    rw [if_neg hx, ih hxs]

/-- A newline-free line followed by a newline splits off as one line. -/
theorem splitLines_cons (l rest : List Char) (h : '\n' ∉ l) :
    splitLines (l ++ '\n' :: rest) = l :: splitLines rest := by
  induction l with
  | nil =>
    rw [List.nil_append, splitLines]
    simp
  | cons x xs ih =>
    have hx : x ≠ '\n' := fun hh => h (by rw [hh]; simp)
    have hxs : '\n' ∉ xs := fun hh => h (by simp [hh])
    rw [List.cons_append, splitLines]
    rw [if_neg hx, ih hxs]

/-- Splitting joined newline-free lines recovers the lines. -/
theorem splitLines_joinLines : ∀ lines : List (List Char),
    lines ≠ [] → (∀ l ∈ lines, '\n' ∉ l) → splitLines (joinLines lines) = lines
  | [], hne, _ => absurd rfl hne
  | [l], _, h => by
    simp only [joinLines]
    exact splitLines_single l (h l (by simp))
  | l :: l2 :: rest, _, h => by
    rw [show joinLines (l :: l2 :: rest) = l ++ '\n' :: joinLines (l2 :: rest) from rfl]
    rw [splitLines_cons l _ (h l (by simp))]
    rw [splitLines_joinLines (l2 :: rest) (by simp)
      (fun x hx => h x (by simp [List.mem_cons] at hx ⊢; tauto))]

/-- Every list starts with itself. -/
theorem startsWithSeq_append_self : ∀ p rest : List Char, startsWithSeq p (p ++ rest) = true
  | [], _ => rfl
  | x :: xs, rest => by
    rw [List.cons_append, startsWithSeq]
    simp [startsWithSeq_append_self xs rest]

/-- A prefix test that fits inside the left part of an append ignores
the right part. -/
theorem startsWithSeq_append_of_le : ∀ (p x y : List Char), p.length ≤ x.length →
    startsWithSeq p (x ++ y) = startsWithSeq p x
  | [], _, _, _ => rfl
  | a :: as, [], y, h => by simp at h
  | a :: as, b :: bs, y, h => by
    rw [List.cons_append, startsWithSeq, startsWithSeq]
    rw [startsWithSeq_append_of_le as bs y (by simpa using h)]

/-- A header line that does not start with the sought name is skipped. -/
theorem findHeader_skip (name l : List Char) (ls : List (List Char))
    (h : startsWithSeq (name ++ ": ".data) l = false) :
    findHeader name (l :: ls) = findHeader name ls := by
  simp [findHeader, h]

/-- A header line built from the sought name yields its value. -/
theorem findHeader_here (name rest : List Char) (ls : List (List Char)) :
    findHeader name ((name ++ ": ".data ++ rest) :: ls) = some rest := by
  rw [findHeader]
  rw [startsWithSeq_append_self]
  rw [List.drop_left]
  simp

/-- Occurrences of the separator strictly inside `a` are also
occurrences in any extension of `a ++ sep`. -/
theorem occursAt_extend (sep a b : List Char) (i : Nat) (hi : i < a.length)
    (h : occursAt sep (a ++ sep) i = false) :
    startsWithSeq sep ((a ++ (sep ++ b)).drop i) = false := by
  unfold occursAt at h
  rw [List.drop_append_of_le_length (le_of_lt hi)] at h
  rw [List.drop_append_of_le_length (le_of_lt hi)]
  rw [← List.append_assoc]
  rw [startsWithSeq_append_of_le sep _ b (by simp)]
  exact h

/-- Splitting at the first occurrence of `sep`, when no occurrence
starts strictly before the one being split at. -/
theorem splitAtSeq_exact : ∀ (sep a b : List Char), sep ≠ [] →
    (∀ i < a.length, occursAt sep (a ++ sep) i = false) →
    splitAtSeq sep (a ++ (sep ++ b)) = some (a, b)
  | sep, [], b, hne, _ => by
    cases sep with
    | nil => exact absurd rfl hne
    | cons s ss =>
      rw [List.nil_append, List.cons_append, splitAtSeq]
      rw [← List.cons_append, startsWithSeq_append_self]
      simp [List.drop_left]
  | sep, c :: a', b, hne, h => by
    have h0 : startsWithSeq sep ((c :: a') ++ (sep ++ b)) = false := by
      have := occursAt_extend sep (c :: a') b 0 (by simp) (h 0 (by simp))
      simpa using this
    rw [List.cons_append, splitAtSeq]
    rw [← List.cons_append, h0]
    simp only [Bool.false_eq_true, if_false]
    rw [splitAtSeq_exact sep a' b hne ?hrest]
    · rfl
    case hrest =>
      intro i hi
      have := h (i + 1) (by simpa using Nat.succ_lt_succ hi)
      unfold occursAt at this ⊢
      simpa using this

/-- A character list free of `q` has no occurrence of `[q]` before its
end. -/
theorem occurs_single_false (q : Char) : ∀ (bb rest : List Char), q ∉ bb →
    ∀ i < bb.length, startsWithSeq [q] ((bb ++ rest).drop i) = false
  | [], _, _, i, hi => by simp at hi
  | c :: bb', rest, hq, 0, _ => by
    have hc : q ≠ c := fun h => hq (by rw [h]; simp)
    rw [List.cons_append, List.drop_zero, startsWithSeq]
    simp [hc]
  | c :: bb', rest, hq, i + 1, hi => by
    rw [List.cons_append, List.drop_succ_cons]
    exact occurs_single_false q bb' rest (fun h => hq (by simp [h])) i (by simpa using hi)

/-- Characters of joined lines come from a line or are the newline
separator. -/
theorem mem_joinLines : ∀ (lines : List (List Char)) (c : Char), c ∈ joinLines lines →
    (∃ l ∈ lines, c ∈ l) ∨ c = '\n'
  | [], _, h => by simp [joinLines] at h
  | [l], c, h => by
    rw [joinLines] at h
    exact Or.inl ⟨l, by simp, h⟩
  | l :: l2 :: rest, c, h => by
    rw [show joinLines (l :: l2 :: rest) = l ++ '\n' :: joinLines (l2 :: rest) from rfl] at h
    rcases List.mem_append.mp h with h1 | h2
    · exact Or.inl ⟨l, by simp, h1⟩
    · rcases List.mem_cons.mp h2 with rfl | h3
      · exact Or.inr rfl
      · rcases mem_joinLines (l2 :: rest) c h3 with ⟨l', hl', hc⟩ | rfl
        · exact Or.inl ⟨l', by simp [List.mem_cons] at hl' ⊢; tauto, hc⟩
        · exact Or.inr rfl

/-- Head-character mismatch refutes a prefix test. -/
theorem startsWithSeq_head_ne (p x : Char) (ps xs : List Char) (h : p ≠ x) :
    startsWithSeq (p :: ps) (x :: xs) = false := by
  rw [startsWithSeq]
  simp [h]

/-- All characters of a serialized simple message are ASCII, given ASCII
inputs. -/
theorem mime_serialize_ascii (toAddr subject body : String) (from_email : Option String)
    (ht : headerSafe toAddr) (hsj : headerSafe subject) (hb : asciiStr body)
    (hf : headerSafe (from_email.getD "")) :
    ∀ c ∈ mime_serialize toAddr subject body from_email, c.toNat < 128 := by
  intro c hc
  unfold mime_serialize at hc
  rcases List.mem_append.mp hc with h | h
  · rcases mem_joinLines _ c h with ⟨l, hl, hcl⟩ | rfl
    · rcases List.mem_append.mp hl with h5 | hifm
      · simp only [List.mem_cons, List.mem_singleton] at h5
        have aux1 : ∀ x ∈ "Content-Type: text/plain; charset=\"us-ascii\"".data,
          Char.toNat x < 128 := by decide
        have aux2 : ∀ x ∈ "MIME-Version: 1.0".data, Char.toNat x < 128 := by decide
        have aux3 : ∀ x ∈ "Content-Transfer-Encoding: 7bit".data, Char.toNat x < 128 := by
          decide
        have aux4 : ∀ x ∈ "to: ".data, Char.toNat x < 128 := by decide
        have aux5 : ∀ x ∈ "subject: ".data, Char.toNat x < 128 := by decide
        rcases h5 with rfl | rfl | rfl | rfl | rfl | h5e
        · exact aux1 c hcl
        · exact aux2 c hcl
        · exact aux3 c hcl
        · rcases List.mem_append.mp hcl with hc1 | hc2
          · exact aux4 c hc1
          · exact (ht c hc2).1
        · rcases List.mem_append.mp hcl with hc1 | hc2
          · exact aux5 c hc1
          · exact (hsj c hc2).1
        · exact absurd h5e (List.not_mem_nil l)
      · by_cases hfe : truthy from_email = true
        · rw [if_pos hfe] at hifm
          have hifm2 := List.mem_singleton.mp hifm
          subst hifm2
          rcases List.mem_append.mp hcl with hc1 | hc2
          · exact (show ∀ x ∈ "from: ".data, Char.toNat x < 128 by decide) c hc1
          · exact (hf c hc2).1
        · rw [if_neg hfe] at hifm
          simp at hifm
    · decide
  · rcases List.mem_cons.mp h with rfl | h2
    · decide
    · rcases List.mem_cons.mp h2 with rfl | h3
      · decide
      · exact hb c h3

/-- Round-trip for the simple (no-attachment) composition: decoding the
raw message and MIME-parsing it recovers To, Subject and the body. -/
theorem roundtrip_simple (toAddr subject body : String) (from_email : Option String)
    (ht : headerSafe toAddr) (hsj : headerSafe subject) (hb : asciiStr body)
    (hf : headerSafe (from_email.getD "")) :
    (decode_raw (compose_message toAddr subject body from_email)).bind
      (parse_mime_header "to".data) = some toAddr.data ∧
    (decode_raw (compose_message toAddr subject body from_email)).bind
      (parse_mime_header "subject".data) = some subject.data ∧
    (decode_raw (compose_message toAddr subject body from_email)).bind
      parse_mime_body = some body.data := by
  have hdec : decode_raw (compose_message toAddr subject body from_email) =
      some (mime_serialize toAddr subject body from_email) := by
    unfold compose_message
    exact decode_raw_encode _ (mime_serialize_ascii toAddr subject body from_email ht hsj hb hf)
  have hL : ∀ l ∈ ("Content-Type: text/plain; charset=\"us-ascii\"".data ::
      "MIME-Version: 1.0".data :: "Content-Transfer-Encoding: 7bit".data ::
      ("to: ".data ++ toAddr.data) :: ("subject: ".data ++ subject.data) ::
      (if truthy from_email then [("from: ".data ++ (from_email.getD "").data)] else [])),
      '\n' ∉ l ∧ l ≠ [] := by
    intro l hl
    simp only [List.mem_cons] at hl
    rcases hl with rfl | rfl | rfl | rfl | rfl | hrest
    · exact ⟨by decide, by decide⟩
    · exact ⟨by decide, by decide⟩
    · exact ⟨by decide, by decide⟩
    · refine ⟨?_, by simp⟩
      intro hmem
      rcases List.mem_append.mp hmem with h1 | h2
      · exact absurd h1 (by decide)
      · exact (ht _ h2).2 rfl
    · refine ⟨?_, by simp⟩
      intro hmem
      rcases List.mem_append.mp hmem with h1 | h2
      · exact absurd h1 (by decide)
      · exact (hsj _ h2).2 rfl
    · by_cases hfe : truthy from_email = true
      · rw [if_pos hfe] at hrest
        have hrest2 := List.mem_singleton.mp hrest
        subst hrest2
        refine ⟨?_, by simp⟩
        intro hmem
        rcases List.mem_append.mp hmem with h1 | h2
        · exact absurd h1 (by decide)
        · exact (hf _ h2).2 rfl
      · rw [if_neg hfe] at hrest
        simp at hrest
  have hser : mime_serialize toAddr subject body from_email =
      joinLines ("Content-Type: text/plain; charset=\"us-ascii\"".data ::
        "MIME-Version: 1.0".data :: "Content-Transfer-Encoding: 7bit".data ::
        ("to: ".data ++ toAddr.data) :: ("subject: ".data ++ subject.data) ::
        (if truthy from_email then [("from: ".data ++ (from_email.getD "").data)] else [])) ++
      '\n' :: '\n' :: body.data := by
    unfold mime_serialize
    rfl
  have hsplit : splitAtBlank (mime_serialize toAddr subject body from_email) =
      some (joinLines ("Content-Type: text/plain; charset=\"us-ascii\"".data ::
        "MIME-Version: 1.0".data :: "Content-Transfer-Encoding: 7bit".data ::
        ("to: ".data ++ toAddr.data) :: ("subject: ".data ++ subject.data) ::
        (if truthy from_email then [("from: ".data ++ (from_email.getD "").data)] else [])),
        body.data) := by
    rw [hser]
    exact splitAtBlank_headers _ body.data (by simp) hL
  have hlines := splitLines_joinLines ("Content-Type: text/plain; charset=\"us-ascii\"".data ::
      "MIME-Version: 1.0".data :: "Content-Transfer-Encoding: 7bit".data ::
      ("to: ".data ++ toAddr.data) :: ("subject: ".data ++ subject.data) ::
      (if truthy from_email then [("from: ".data ++ (from_email.getD "").data)] else []))
    (by simp) (fun l hl => (hL l hl).1)
  refine ⟨?_, ?_, ?_⟩
  · rw [hdec, Option.some_bind]
    rw [parse_mime_header, hsplit, Option.some_bind]
    rw [hlines]
    rw [findHeader_skip _ _ _ (by decide), findHeader_skip _ _ _ (by decide),
      findHeader_skip _ _ _ (by decide)]
    exact findHeader_here "to".data toAddr.data _
  · rw [hdec, Option.some_bind]
    rw [parse_mime_header, hsplit, Option.some_bind]
    rw [hlines]
    rw [findHeader_skip _ _ _ (by decide), findHeader_skip _ _ _ (by decide),
      findHeader_skip _ _ _ (by decide)]
    rw [findHeader_skip _ _ _
      (startsWithSeq_head_ne 's' 't' "ubject: ".data ("o: ".data ++ toAddr.data) (by decide))]
    exact findHeader_here "subject".data subject.data _
  · rw [hdec, Option.some_bind]
    rw [parse_mime_body, hsplit]
    rfl

/-- ASCII-ness is closed under append. -/
theorem asciiL_append {a b : List Char} (ha : asciiL a) (hb : asciiL b) : asciiL (a ++ b) := by
  intro c hc
  rcases List.mem_append.mp hc with h | h
  · exact ha c h
  · exact hb c h

/-- ASCII-ness is closed under cons. -/
theorem asciiL_cons {x : Char} {t : List Char} (hx : x.toNat < 128) (ht : asciiL t) :
    asciiL (x :: t) := by
  intro c hc
  rcases List.mem_cons.mp hc with rfl | h
  · exact hx
  · exact ht c h

/-- Joined ASCII lines are ASCII. -/
theorem asciiL_joinLines {lines : List (List Char)} (h : ∀ l ∈ lines, asciiL l) :
    asciiL (joinLines lines) := by
  intro c hc
  rcases mem_joinLines lines c hc with ⟨l, hl, hcl⟩ | rfl
  · exact h l hl c hcl
  · decide

/-- The standard base64 alphabet characters are ASCII. -/
theorem b64charStd_ascii (n : Nat) : (b64charStd n).toNat < 128 := by
  by_cases h : n < 64
  · exact (show ∀ m < 64, (b64charStd m).toNat < 128 by decide) n h
  · unfold b64charStd
    rw [List.getD_eq_default _ _ (by simpa using Nat.le_of_not_lt h)]
    decide

/-- Standard base64 encoding produces ASCII characters. -/
theorem b64encodeStd_ascii (bs : List Nat) : asciiL (b64encodeStdBytes bs) := by
  induction bs using b64encodeStdBytes.induct with
  | case1 a b c rest ih =>
    rw [b64encodeStdBytes]
    exact asciiL_cons (b64charStd_ascii _) (asciiL_cons (b64charStd_ascii _)
      (asciiL_cons (b64charStd_ascii _) (asciiL_cons (b64charStd_ascii _) ih)))
  | case2 a b =>
    rw [b64encodeStdBytes]
    exact asciiL_cons (b64charStd_ascii _) (asciiL_cons (b64charStd_ascii _)
      (asciiL_cons (b64charStd_ascii _) (by unfold asciiL; decide)))
  | case3 a =>
    rw [b64encodeStdBytes]
    exact asciiL_cons (b64charStd_ascii _)
      (asciiL_cons (b64charStd_ascii _) (by unfold asciiL; decide))
  | case4 =>
    rw [b64encodeStdBytes]
    unfold asciiL
    decide

/-- Chunking into newline-terminated lines preserves ASCII-ness, by
induction on a length bound. -/
theorem chunk76_ascii_aux : ∀ (n : Nat) (cs : List Char), cs.length ≤ n → asciiL cs →
    asciiL (chunk76 cs) := by
  intro n
  induction n with
  | zero =>
    intro cs hlen _
    have hnil : cs = [] := List.eq_nil_of_length_eq_zero (Nat.le_zero.mp hlen)
    subst hnil
    rw [chunk76]
    intro c hc
    simp at hc
  | succ n ih =>
    intro cs hlen h
    rw [chunk76]
    by_cases hnil : cs = []
    · rw [dif_pos hnil]
      intro c hc
      simp at hc
    · rw [dif_neg hnil]
      by_cases hle : cs.length ≤ 76
      · rw [if_pos hle]
        exact asciiL_append h (by unfold asciiL; decide)
      · rw [if_neg hle]
        refine asciiL_append (fun c hc => h c (List.take_subset _ _ hc)) ?_
        refine asciiL_cons (by decide) ?_
        refine ih (cs.drop 76) ?_ (fun c hc => h c (List.drop_subset _ _ hc))
        rw [List.length_drop]
        omega

/-- Chunking into newline-terminated lines preserves ASCII-ness. -/
theorem chunk76_ascii (cs : List Char) (h : asciiL cs) : asciiL (chunk76 cs) :=
  chunk76_ascii_aux cs.length cs le_rfl h

/-- The wrapped attachment encoding is ASCII. -/
theorem encode_base64_wrapped_ascii (bytes : List Nat) :
    asciiL (encode_base64_wrapped bytes) :=
  chunk76_ascii _ (b64encodeStd_ascii bytes)

/-- The multipart serialization, re-associated into the parse-friendly
canonical shape. -/
theorem multipart_canonical (toAddr subject body filename : String)
    (filedata : List Nat) (boundary : String) :
    mime_serialize_multipart toAddr subject body filename filedata boundary =
      joinLines (multipartHeadLines toAddr subject boundary) ++
        ('\n' :: '\n' :: multipartRest body filedata boundary filename) := by
  simp [mime_serialize_multipart, multipartHeadLines, part1Lines, part2Lines, part1Tail,
    multipartRest, List.append_assoc, List.cons_append, List.nil_append]

/-- All characters of a serialized multipart message are ASCII, given
ASCII inputs. -/
theorem mime_serialize_multipart_ascii (toAddr subject body filename : String)
    (filedata : List Nat) (boundary : String)
    (ht : headerSafe toAddr) (hsj : headerSafe subject) (hb : asciiStr body)
    (hfn : headerSafe filename) (hbd : headerSafe boundary) :
    asciiL (mime_serialize_multipart toAddr subject body filename filedata boundary) := by
  have hAddrA : asciiL toAddr.data := fun c hc => (ht c hc).1
  have hsjA : asciiL subject.data := fun c hc => (hsj c hc).1
  have hbA : asciiL body.data := hb
  have hfnA : asciiL filename.data := fun c hc => (hfn c hc).1
  have hbdA : asciiL boundary.data := fun c hc => (hbd c hc).1
  have nl : ('\n').toNat < 128 := by decide
  have da : ('-').toNat < 128 := by decide
  have hP1 : asciiL (joinLines part1Lines) := by
    refine asciiL_joinLines ?_
    intro l hl
    rw [part1Lines] at hl
    simp only [List.mem_cons] at hl
    rcases hl with rfl | rfl | rfl | hl
    · unfold asciiL; decide
    · unfold asciiL; decide
    · unfold asciiL; decide
    · simp at hl
  have hP2 : asciiL (joinLines (part2Lines filename)) := by
    refine asciiL_joinLines ?_
    intro l hl
    rw [part2Lines] at hl
    simp only [List.mem_cons] at hl
    rcases hl with rfl | rfl | rfl | rfl | hl
    · unfold asciiL; decide
    · unfold asciiL; decide
    · unfold asciiL; decide
    · exact asciiL_append (by unfold asciiL; decide) hfnA
    · simp at hl
  have hHL : asciiL (joinLines (multipartHeadLines toAddr subject boundary)) := by
    refine asciiL_joinLines ?_
    intro l hl
    rw [multipartHeadLines] at hl
    simp only [List.mem_cons] at hl
    rcases hl with rfl | rfl | rfl | rfl | hl
    · refine asciiL_append (by unfold asciiL; decide)
        (asciiL_append (by unfold asciiL; decide)
          (asciiL_append (by unfold asciiL; decide)
            (asciiL_append hbdA (by unfold asciiL; decide))))
    · unfold asciiL; decide
    · exact asciiL_append (by unfold asciiL; decide) hAddrA
    · exact asciiL_append (by unfold asciiL; decide) hsjA
    · simp at hl
  rw [multipart_canonical]
  refine asciiL_append hHL (asciiL_cons nl (asciiL_cons nl ?_))
  rw [multipartRest]
  refine asciiL_append
    (asciiL_cons da (asciiL_cons da (asciiL_append hbdA (by unfold asciiL; decide))))
    (asciiL_append hP1 (asciiL_cons nl (asciiL_cons nl ?_)))
  rw [part1Tail]
  refine asciiL_append hbA (asciiL_append
    (asciiL_cons nl (asciiL_cons da (asciiL_cons da hbdA)))
    (asciiL_cons nl (asciiL_append hP2 (asciiL_cons nl (asciiL_cons nl
      (asciiL_append (fun c hc => encode_base64_wrapped_ascii filedata c hc)
        (asciiL_append (asciiL_cons nl (asciiL_cons da (asciiL_cons da hbdA)))
          (by unfold asciiL; decide))))))))

/-- Round-trip for the attachment composition: decoding the raw message
and MIME-parsing it recovers To, Subject and the body part's text. -/
theorem roundtrip_multipart (toAddr subject body file_path : String)
    (filedata : List Nat) (boundary : String) (raw : List Char)
    (ht : headerSafe toAddr) (hsj : headerSafe subject) (hb : asciiStr body)
    (hfn : headerSafe (basename file_path)) (hbd : headerSafe boundary)
    (hq : ('\"' : Char) ∉ boundary.data)
    (hsep : sepFree boundary.data body.data)
    (hcomp : compose_message_with_attachment toAddr subject body file_path true filedata
      boundary = some raw) :
    (decode_raw raw).bind (parse_mime_header "to".data) = some toAddr.data ∧
    (decode_raw raw).bind (parse_mime_header "subject".data) = some subject.data ∧
    (decode_raw raw).bind parse_first_part_body = some body.data := by
  unfold compose_message_with_attachment at hcomp
  rw [if_pos rfl] at hcomp
  injection hcomp with hraw
  subst hraw
  have hdec : decode_raw (b64encodeBytes
      ((mime_serialize_multipart toAddr subject body (basename file_path) filedata
        boundary).map Char.toNat)) =
      some (joinLines (multipartHeadLines toAddr subject boundary) ++
        ('\n' :: '\n' :: multipartRest body filedata boundary (basename file_path))) := by
    rw [decode_raw_encode _
      (mime_serialize_multipart_ascii toAddr subject body (basename file_path) filedata
        boundary ht hsj hb hfn hbd)]
    rw [multipart_canonical]
  have hHLcond : ∀ l ∈ multipartHeadLines toAddr subject boundary, '\n' ∉ l ∧ l ≠ [] := by
    intro l hl
    rw [multipartHeadLines] at hl
    simp only [List.mem_cons] at hl
    rcases hl with rfl | rfl | rfl | rfl | hl
    · refine ⟨?_, by simp⟩
      intro hmem
      rcases List.mem_append.mp hmem with h1 | h1
      · exact absurd h1 (by decide)
      rcases List.mem_append.mp h1 with h2 | h2
      · exact absurd h2 (by decide)
      rcases List.mem_append.mp h2 with h3 | h3
      · exact absurd h3 (by decide)
      rcases List.mem_append.mp h3 with h4 | h4
      · exact (hbd _ h4).2 rfl
      · exact absurd h4 (by decide)
    · exact ⟨by decide, by decide⟩
    · refine ⟨?_, by simp⟩
      intro hmem
      rcases List.mem_append.mp hmem with h1 | h2
      · exact absurd h1 (by decide)
      · exact (ht _ h2).2 rfl
    · refine ⟨?_, by simp⟩
      intro hmem
      rcases List.mem_append.mp hmem with h1 | h2
      · exact absurd h1 (by decide)
      · exact (hsj _ h2).2 rfl
    · simp at hl
  have hsplitTop : splitAtBlank
      (joinLines (multipartHeadLines toAddr subject boundary) ++
        ('\n' :: '\n' :: multipartRest body filedata boundary (basename file_path))) =
      some (joinLines (multipartHeadLines toAddr subject boundary),
        multipartRest body filedata boundary (basename file_path)) :=
    splitAtBlank_headers _ _ (by rw [multipartHeadLines]; simp) hHLcond
  have hlines := splitLines_joinLines (multipartHeadLines toAddr subject boundary)
    (by rw [multipartHeadLines]; simp) (fun l hl => (hHLcond l hl).1)
  have hskipM1to : startsWithSeq ("to".data ++ ": ".data)
      (("Content-Type".data ++ ": ".data) ++
        ("multipart/mixed; ".data ++ ("boundary=\"".data ++ (boundary.data ++ "\"".data)))) =
      false := by
    rw [startsWithSeq_append_of_le _ _ _ (by decide)]
    decide
  have hskipM1su : startsWithSeq ("subject".data ++ ": ".data)
      (("Content-Type".data ++ ": ".data) ++
        ("multipart/mixed; ".data ++ ("boundary=\"".data ++ (boundary.data ++ "\"".data)))) =
      false := by
    rw [startsWithSeq_append_of_le _ _ _ (by decide)]
    decide
  refine ⟨?_, ?_, ?_⟩
  · rw [hdec, Option.some_bind, parse_mime_header, hsplitTop, Option.some_bind, hlines]
    rw [multipartHeadLines]
    rw [findHeader_skip _ _ _ hskipM1to, findHeader_skip _ _ _ (by decide)]
    exact findHeader_here "to".data toAddr.data _
  · rw [hdec, Option.some_bind, parse_mime_header, hsplitTop, Option.some_bind, hlines]
    rw [multipartHeadLines]
    rw [findHeader_skip _ _ _ hskipM1su, findHeader_skip _ _ _ (by decide)]
    rw [findHeader_skip _ _ _
      (startsWithSeq_head_ne 's' 't' "ubject: ".data ("o: ".data ++ toAddr.data) (by decide))]
    exact findHeader_here "subject".data subject.data _
  · have hct : findHeader "Content-Type".data (multipartHeadLines toAddr subject boundary) =
        some ("multipart/mixed; ".data ++
          ("boundary=\"".data ++ (boundary.data ++ "\"".data))) := by
      rw [multipartHeadLines]
      exact findHeader_here "Content-Type".data _ _
    have h1 : splitAtSeq "boundary=\"".data
        ("multipart/mixed; ".data ++ ("boundary=\"".data ++ (boundary.data ++ "\"".data))) =
        some ("multipart/mixed; ".data, boundary.data ++ "\"".data) :=
      splitAtSeq_exact "boundary=\"".data "multipart/mixed; ".data _ (by decide) (by decide)
    have h2 : splitAtSeq "\"".data (boundary.data ++ "\"".data) =
        some (boundary.data, []) := by
      have hocc : ∀ i < boundary.data.length,
          occursAt "\"".data (boundary.data ++ "\"".data) i = false :=
        fun i hi => occurs_single_false '\"' boundary.data "\"".data hq i hi
      have := splitAtSeq_exact "\"".data boundary.data [] (by decide) hocc
      simpa using this
    have hbound : extract_boundary
        ("multipart/mixed; ".data ++ ("boundary=\"".data ++ (boundary.data ++ "\"".data))) =
        some boundary.data := by
      rw [extract_boundary.eq_def, h1]
      show (splitAtSeq "\"".data (boundary.data ++ "\"".data)).map (fun p => p.1) =
        some boundary.data
      rw [h2]
      rfl
    have hpre : startsWithSeq ('-' :: '-' :: boundary.data ++ ['\n'])
        (multipartRest body filedata boundary (basename file_path)) = true := by
      rw [multipartRest]
      have := startsWithSeq_append_self ('-' :: '-' :: (boundary.data ++ ['\n']))
        (joinLines part1Lines ++
          ('\n' :: '\n' :: part1Tail body filedata boundary (basename file_path)))
      simpa [List.cons_append] using this
    have hplen : ('-' :: '-' :: (boundary.data ++ ['\n'])).length =
        boundary.data.length + 3 := by
      simp
    have hdrop : (multipartRest body filedata boundary (basename file_path)).drop
        (boundary.data.length + 3) =
        joinLines part1Lines ++
          ('\n' :: '\n' :: part1Tail body filedata boundary (basename file_path)) := by
      rw [multipartRest, ← hplen, List.drop_left]
    have hsplit1 : splitAtBlank
        (joinLines part1Lines ++
          ('\n' :: '\n' :: part1Tail body filedata boundary (basename file_path))) =
        some (joinLines part1Lines, part1Tail body filedata boundary (basename file_path)) := by
      refine splitAtBlank_headers _ _ (by rw [part1Lines]; simp) ?_
      intro l hl
      rw [part1Lines] at hl
      simp only [List.mem_cons] at hl
      rcases hl with rfl | rfl | rfl | hl
      · exact ⟨by decide, by decide⟩
      · exact ⟨by decide, by decide⟩
      · exact ⟨by decide, by decide⟩
      · simp at hl
    have hseq : splitAtSeq ('\n' :: '-' :: '-' :: boundary.data)
        (part1Tail body filedata boundary (basename file_path)) =
        some (body.data,
          '\n' :: (joinLines (part2Lines (basename file_path)) ++
            ('\n' :: '\n' ::
              (encode_base64_wrapped filedata ++
                (('\n' :: '-' :: '-' :: boundary.data) ++ "--\n".data))))) := by
      rw [part1Tail]
      exact splitAtSeq_exact ('\n' :: '-' :: '-' :: boundary.data) body.data _ (by simp) hsep
    rw [hdec, Option.some_bind]
    simp only [parse_first_part_body.eq_def, hsplitTop, hlines, hct, hbound, hpre, if_true,
      hdrop, hsplit1, hseq, Option.map_some']

/-- C9: composing an outgoing message and then decoding the result
(base64url-decode followed by MIME-parse) recovers the original To,
Subject and body text unchanged — for the plain composition of
`send_message` and for the multipart composition of
`send_message_with_attachment` (under the conditions the Python encoder
itself needs: ASCII header values without embedded newlines, ASCII body,
and a boundary that does not occur in the body, as the random boundary
generator guarantees). -/
theorem C9_compose_roundtrip :
    (∀ (toAddr subject body : String) (from_email : Option String),
      headerSafe toAddr → headerSafe subject → asciiStr body →
      headerSafe (from_email.getD "") →
      (decode_raw (compose_message toAddr subject body from_email)).bind
        (parse_mime_header "to".data) = some toAddr.data ∧
      (decode_raw (compose_message toAddr subject body from_email)).bind
        (parse_mime_header "subject".data) = some subject.data ∧
      (decode_raw (compose_message toAddr subject body from_email)).bind
        parse_mime_body = some body.data) ∧
    (∀ (toAddr subject body file_path : String) (filedata : List Nat) (boundary : String)
        (raw : List Char),
      headerSafe toAddr → headerSafe subject → asciiStr body →
      headerSafe (basename file_path) → headerSafe boundary →
      ('\"' : Char) ∉ boundary.data → sepFree boundary.data body.data →
      compose_message_with_attachment toAddr subject body file_path true filedata boundary =
        some raw →
      (decode_raw raw).bind (parse_mime_header "to".data) = some toAddr.data ∧
      (decode_raw raw).bind (parse_mime_header "subject".data) = some subject.data ∧
      (decode_raw raw).bind parse_first_part_body = some body.data) :=
  ⟨fun toAddr subject body from_email ht hsj hb hf =>
    roundtrip_simple toAddr subject body from_email ht hsj hb hf,
   fun toAddr subject body file_path filedata boundary raw ht hsj hb hfn hbd hq hsep hcomp =>
    roundtrip_multipart toAddr subject body file_path filedata boundary raw
      ht hsj hb hfn hbd hq hsep hcomp⟩

/-- C9 witness: both compositions round-tripped at concrete inputs. -/
theorem C9_witness :
    ((decode_raw (compose_message "a@b.com" "Greetings" "Hello there" none)).bind
        (parse_mime_header "to".data) = some "a@b.com".data ∧
      (decode_raw (compose_message "a@b.com" "Greetings" "Hello there" none)).bind
        (parse_mime_header "subject".data) = some "Greetings".data ∧
      (decode_raw (compose_message "a@b.com" "Greetings" "Hello there" none)).bind
        parse_mime_body = some "Hello there".data) ∧
    ((decode_raw (b64encodeBytes
        ((mime_serialize_multipart "a@b.com" "Report" "See attachment"
          (basename "/tmp/data.bin") [1, 2, 255] "==BND==").map Char.toNat))).bind
        (parse_mime_header "to".data) = some "a@b.com".data ∧
      (decode_raw (b64encodeBytes
        ((mime_serialize_multipart "a@b.com" "Report" "See attachment"
          (basename "/tmp/data.bin") [1, 2, 255] "==BND==").map Char.toNat))).bind
        (parse_mime_header "subject".data) = some "Report".data ∧
      (decode_raw (b64encodeBytes
        ((mime_serialize_multipart "a@b.com" "Report" "See attachment"
          (basename "/tmp/data.bin") [1, 2, 255] "==BND==").map Char.toNat))).bind
        parse_first_part_body = some "See attachment".data) :=
  ⟨C9_compose_roundtrip.1 "a@b.com" "Greetings" "Hello there" none
    (by unfold headerSafe; decide) (by unfold headerSafe; decide)
    (by unfold asciiStr; decide) (by unfold headerSafe; decide),
   C9_compose_roundtrip.2 "a@b.com" "Report" "See attachment" "/tmp/data.bin"
    [1, 2, 255] "==BND=="
    (b64encodeBytes ((mime_serialize_multipart "a@b.com" "Report" "See attachment"
      (basename "/tmp/data.bin") [1, 2, 255] "==BND==").map Char.toNat))
    (by unfold headerSafe; decide) (by unfold headerSafe; decide)
    (by unfold asciiStr; decide) (by unfold headerSafe basename; decide)
    (by unfold headerSafe; decide) (by decide)
    (by unfold sepFree occursAt; decide) rfl⟩

end GmailMcp
